import Mathlib

/-!
# Verification of the KeyValueDatabase server (`server.py`)

Shallow embedding of the server-side core of the key-value database:
the in-memory store (a Python `dict` keyed by primitive values), the
read/add/delete operations, the query-string parser built on `pyparsing`
(`Keyword`/`Word(printables)`/`Literal` with default whitespace skipping and
`parseString` that does not require consuming the whole input), the query
execution engine (`_execute_query_by_value` / `_execute_query_by_key` /
`_delete_from_query`), the request dispatch table of `_listen`, and the
snapshot-load logic of `_init_db`.

Modelling conventions:
* Python values occurring as keys/values/query literals are modelled by
  `PyVal`: `int` as `Int`, `str` as `String`, `float` as an exact rational
  (`Rat`; IEEE rounding, `inf` and `nan` are outside this embedding — no
  claim depends on them), `complex` as a pair of rationals, and `None`.
* A Python `dict` is an association list ordered by insertion; lookup,
  assignment and deletion compare keys with Python `==` (`pyEq`).
  Assignment to an existing key keeps the original key object.
* An operation that raises a Python exception is modelled by `Option`
  (`none` = the operation raised) or, at the dispatch/startup boundary where
  exceptions escape, by `Except PyError`.
-/

/-- A Python primitive value as used by the database: keys, stored values and
typed query literals. `floatV` is an exact rational (see module docstring). -/
inductive PyVal where
  | intV (n : Int)
  | floatV (q : Rat)
  | complexV (re im : Rat)
  | strV (s : String)
  | noneV
  deriving DecidableEq, Repr

/-- An entry of the store: a (key, value) pair. -/
abbrev Entry := PyVal × PyVal

/-- The in-memory database `self.data`: a Python dict as an association list
in insertion order. -/
abbrev Store := List Entry

/-- Numeric view used by Python `==`: `int`, `float` and `complex` compare
numerically with each other (a complex with zero imaginary part equals the
corresponding real). -/
def PyVal.asComplexNum : PyVal → Option (Rat × Rat)
  | .intV n => some ((n : Rat), 0)
  | .floatV q => some (q, 0)
  | .complexV re im => some (re, im)
  | _ => none

/-- Numeric view used by Python's order comparisons: only `int` and `float`
are mutually ordered; `complex` does not support `<`, `>`, `<=`, `>=`. -/
def PyVal.asRatNum : PyVal → Option Rat
  | .intV n => some (n : Rat)
  | .floatV q => some q
  | _ => none

/-- Python `==` on the modelled values. Numbers compare numerically across
kinds, strings compare as strings, `None` equals only `None`; any other
cross-kind comparison is `False` (Python `==` never raises here). -/
def pyEq (x y : PyVal) : Bool :=
  match x.asComplexNum, y.asComplexNum with
  | some a, some b => decide (a = b)
  | _, _ =>
    match x, y with
    | .strV a, .strV b => a == b
    | .noneV, .noneV => true
    | _, _ => false

/-- Lexicographic (code-point) order on char lists: Python `str < str`. -/
def charListLt : List Char → List Char → Bool
  | [], [] => false
  | [], _ :: _ => true
  | _ :: _, [] => false
  | a :: as, b :: bs =>
    if a.toNat < b.toNat then true
    else if b.toNat < a.toNat then false
    else charListLt as bs

/-- Python `a < b`. `some r` means the comparison returned `r`; `none` means
it raised `TypeError` (mixed string/number, `complex`, or `None` operands). -/
def pyLt (x y : PyVal) : Option Bool :=
  match x.asRatNum, y.asRatNum with
  | some a, some b => some (decide (a < b))
  | _, _ =>
    match x, y with
    | .strV a, .strV b => some (charListLt a.data b.data)
    | _, _ => none

/-- Python `a > b` (see `pyLt`). -/
def pyGt (x y : PyVal) : Option Bool :=
  match x.asRatNum, y.asRatNum with
  | some a, some b => some (decide (b < a))
  | _, _ =>
    match x, y with
    | .strV a, .strV b => some (charListLt b.data a.data)
    | _, _ => none

/-- Python `a <= b` (see `pyLt`; strings form a total order, so `<=` is the
negation of the reversed `<`). -/
def pyLe (x y : PyVal) : Option Bool :=
  match x.asRatNum, y.asRatNum with
  | some a, some b => some (decide (a ≤ b))
  | _, _ =>
    match x, y with
    | .strV a, .strV b => some (!charListLt b.data a.data)
    | _, _ => none

/-- Python `a >= b` (see `pyLe`). -/
def pyGe (x y : PyVal) : Option Bool :=
  match x.asRatNum, y.asRatNum with
  | some a, some b => some (decide (b ≤ a))
  | _, _ =>
    match x, y with
    | .strV a, .strV b => some (!charListLt a.data b.data)
    | _, _ => none

/-- Is `n` a prefix of `h`? (chars compared with `==`). -/
def charListIsPrefixOf : List Char → List Char → Bool
  | [], _ => true
  | _ :: _, [] => false
  | a :: as, b :: bs => a == b && charListIsPrefixOf as bs

/-- Does `n` occur as a contiguous substring of `h`? -/
def charListIsSubstrOf (n : List Char) : List Char → Bool
  | [] => n.isEmpty
  | c :: t => charListIsPrefixOf n (c :: t) || charListIsSubstrOf n t

/-- Python `operator.contains(container, item)`, i.e. `item in container`:
substring test when both are strings; every other combination of the modelled
values raises `TypeError` (`none`) — ints/floats/complex/None are not
containers, and `x in str` requires `x` to be a string. -/
def pyContains (container item : PyVal) : Option Bool :=
  match container, item with
  | .strV s, .strV x => some (charListIsSubstrOf x.data s.data)
  | _, _ => none

/-- Lookup `self.data[key]`: first entry whose key `==` the given key. -/
def lookupPy : Store → PyVal → Option PyVal
  | [], _ => none
  | e :: rest, k => if pyEq e.1 k then some e.2 else lookupPy rest k

/-- Assignment `self.data[key] = value`: replace the value of the first `==`-equal key
(keeping the originally stored key object, as Python dicts do), else append. -/
def insertPy : Store → PyVal → PyVal → Store
  | [], k, v => [(k, v)]
  | e :: rest, k, v =>
    if pyEq e.1 k then (e.1, v) :: rest else e :: insertPy rest k v

/-- Deletion `del self.data[key]`: remove the first `==`-equal key (no-op if absent;
the caller's `try`/`except` decides what a `KeyError` means). -/
def removePy : Store → PyVal → Store
  | [], _ => []
  | e :: rest, k => if pyEq e.1 k then rest else e :: removePy rest k

/-- No two entries of a store have `==`-equal keys — the invariant every
Python dict maintains. -/
def StoreWF (st : Store) : Prop :=
  st.Pairwise (fun a b => pyEq a.1 b.1 = false)

/-- From `response.py`: the `Response(success, message, data)` object; `message`
is a string or `None`. -/
structure Response where
  success : Bool
  message : Option String
  data : List Entry
  deriving DecidableEq, Repr

namespace Server

/-- Source `Server._send_error` (server.py:316-326). -/
def sendError (description : String) : Response :=
  Response.mk false (some description) []

/-- Source `Server._read` (server.py:105-119): `Response(True, None, [(key,
self.data[key])])`, or the "Entry does not exist." error when the lookup
raises `KeyError`. The store is not modified. -/
def read (st : Store) (key : PyVal) : Response :=
  match lookupPy st key with
  | some v => Response.mk true none [(key, v)]
  | none => sendError "Entry does not exist."

/-- Source `Server._add` (server.py:121-137): `self.data[key] = value`, then answer
with `[(key, self.data[key])]`. The `except` branch (unhashable key) is
unreachable for the modelled primitive values but kept for structure. -/
def add (st : Store) (key value : PyVal) : Response × Store :=
  let st' := insertPy st key value
  match lookupPy st' key with
  | some w => (Response.mk true none [(key, w)], st')
  | none => (sendError "Entry could not be added.", st')

/-- Source `Server._delete` (server.py:139-154): `del self.data[key]`; a `KeyError`
(absent key) is converted to the "Entry could not be deleted." error. -/
def delete (st : Store) (key : PyVal) : Response × Store :=
  match lookupPy st key with
  | some _ => (Response.mk true none [], removePy st key)
  | none => (sendError "Entry could not be deleted.", st)

end Server

/-- Python `==` is reflexive on the modelled values (no `NaN` in the model). -/
theorem pyEq_refl (v : PyVal) : pyEq v v = true := by
  cases v <;> simp [pyEq, PyVal.asComplexNum]

/-- After `self.data[k] = v`, `self.data[k]` is `v`. -/
theorem lookupPy_insertPy (st : Store) (k v : PyVal) :
    lookupPy (insertPy st k v) k = some v := by
  induction st with
  | nil => simp [insertPy, lookupPy, pyEq_refl]
  | cons e rest ih =>
    by_cases h : pyEq e.1 k = true
    · simp [insertPy, lookupPy, h]
    · simp only [insertPy, lookupPy, h]
      simp only [Bool.not_eq_true] at h
      simp [h, ih]

/-- A kind of uncaught Python exception modelled at a boundary where the
source lets it escape. -/
inductive PyError where
  | typeErrorIntNotCallable
  | unpicklingError
  deriving DecidableEq, Repr

/-- The state of the configured snapshot file at startup, as seen by
`Server._init_db`: missing (opening raises an `IOError`), readable with a
well-formed pickled store, or readable but with content on which
`pickle.loads` raises (`UnpicklingError`/`EOFError`, not an `IOError`). -/
inductive FileState where
  | absent
  | present (d : Store)
  | corrupt
  deriving DecidableEq, Repr

/-- Source `Server._init_db` (server.py:50-59): `try: self.data =
pickle.loads(open(self.filename).read()) except IOError: self.data = {}`.
Only `IOError` is caught, so a deserialization failure on existing content
escapes to the caller. -/
def Server.initDb : FileState → Except PyError Store
  | .absent => .ok []
  | .present d => .ok d
  | .corrupt => .error .unpicklingError

/-- File `request.py` is not in the repository, but `client.py` constructs
`Request(request_type, key, value, query)`; `None` fields are `PyVal.noneV`
resp. `Option.none`. The type code is modelled as the integers, which
include the four defined codes and arbitrary undefined ones. -/
structure Request where
  request_type : Int
  key : PyVal
  value : PyVal
  query : Option String
  deriving Repr

/-! ## The query-string parser

`Server._parse_query_string` (server.py:197-233) builds a `pyparsing` grammar
`ACTION + ELEMENT + OPERATOR + VALUE` from `Keyword`s, `Word(printables)` and
the literal parens, and runs `SYNTAX.parseString(query)`. The embedding
reproduces `pyparsing`'s matching behaviour on this grammar:

* each element first skips leading whitespace (`' '`, `'\t'`, `'\n'`, `'\r'`);
* `Keyword(w)` matches `w` only if the character before the match position and
  the character after the matched text are not "identifier characters"
  (alphanumerics, `'_'`, `'$'`);
* `Word(printables)` takes a maximal nonempty run of ASCII characters in the
  range 33..126;
* `Literal("(")` / `Literal(")")` match exactly, with no surrounding checks;
* alternatives (`|`) are tried left to right, first match wins;
* `parseString` (without `parseAll=True`) raises on a failed match but ignores
  any unconsumed trailing input.
-/

/-- The `pyparsing.Keyword` identifier characters: `alphanums + "_$"`. -/
def isIdentChar (c : Char) : Bool :=
  c.isAlphanum || c == '_' || c == '$'

/-- A character of `pyparsing.printables`: printable ASCII, no whitespace. -/
def isPrintableChar (c : Char) : Bool :=
  33 ≤ c.toNat && c.toNat ≤ 126

/-- A `pyparsing` default whitespace character. -/
def isWsChar (c : Char) : Bool :=
  c == ' ' || c == '\t' || c == '\n' || c == '\r'

/-- Parser position: the remaining input plus the character immediately
before it (`none` at the start of the string), needed for `Keyword`'s
preceding-character check. -/
structure PState where
  prev : Option Char
  rest : List Char
  deriving DecidableEq, Repr

/-- Skip leading whitespace, tracking the last consumed character. -/
def skipWsL : Option Char → List Char → PState
  | p, [] => PState.mk p []
  | p, c :: cs => if isWsChar c then skipWsL (some c) cs else PState.mk p (c :: cs)

/-- Skip leading whitespace at a parser position. -/
def skipWs (s : PState) : PState :=
  skipWsL s.prev s.rest

/-- Strip an expected literal text from the head of the input. -/
def stripLit : List Char → List Char → Option (List Char)
  | [], rest => some rest
  | _ :: _, [] => none
  | k :: ks, c :: cs => if k == c then stripLit ks cs else none

/-- The `Keyword` check on the character before the match. -/
def prevOK : Option Char → Bool
  | none => true
  | some c => !isIdentChar c

/-- The `Keyword` check on the character after the match. -/
def headOK : List Char → Bool
  | [] => true
  | c :: _ => !isIdentChar c

/-- Matching `pyparsing.Keyword(kw)` at a position: skip whitespace, require the
keyword text not adjacent to identifier characters on either side. -/
def matchKeyword (kw : List Char) (s : PState) : Option PState :=
  let s' := skipWs s
  if prevOK s'.prev then
    match stripLit kw s'.rest with
    | some r => if headOK r then some (PState.mk kw.getLast? r) else none
    | none => none
  else none

/-- Matching `pyparsing.Literal(l)` at a position: skip whitespace, match exactly. -/
def matchLiteral (l : List Char) (s : PState) : Option PState :=
  match stripLit l (skipWs s).rest with
  | some r => some (PState.mk l.getLast? r)
  | none => none

/-- Matching `pyparsing.Word(printables)` at a position: skip whitespace, take a
maximal nonempty run of printable characters. -/
def matchWordPrintables (s : PState) : Option (List Char × PState) :=
  let s' := skipWs s
  let w := s'.rest.takeWhile isPrintableChar
  if w.isEmpty then none
  else some (w, PState.mk w.getLast? (s'.rest.drop w.length))

/-- The query action keywords. -/
inductive QAction where
  | read
  | delete
  deriving DecidableEq, Repr

/-- The query element keywords. -/
inductive QElement where
  | key
  | value
  deriving DecidableEq, Repr

/-- The query operator keywords, in the source's alternative order
`"<=" | ">=" | "<" | ">" | "=" | "contains"`. -/
inductive QOp where
  | le
  | ge
  | lt
  | gt
  | eq
  | contains
  deriving DecidableEq, Repr

/-- Grammar `ACTION = Keyword("read") | Keyword("delete")`. -/
def parseAction (s : PState) : Option (QAction × PState) :=
  match matchKeyword "read".data s with
  | some s' => some (QAction.read, s')
  | none =>
    match matchKeyword "delete".data s with
    | some s' => some (QAction.delete, s')
    | none => none

/-- Grammar `ELEMENT = Keyword("key") | Keyword("value")`. -/
def parseElement (s : PState) : Option (QElement × PState) :=
  match matchKeyword "key".data s with
  | some s' => some (QElement.key, s')
  | none =>
    match matchKeyword "value".data s with
    | some s' => some (QElement.value, s')
    | none => none

/-- Grammar `OPERATOR`, alternatives in source order. -/
def parseOperator (s : PState) : Option (QOp × PState) :=
  match matchKeyword "<=".data s with
  | some s' => some (QOp.le, s')
  | none =>
  match matchKeyword ">=".data s with
  | some s' => some (QOp.ge, s')
  | none =>
  match matchKeyword "<".data s with
  | some s' => some (QOp.lt, s')
  | none =>
  match matchKeyword ">".data s with
  | some s' => some (QOp.gt, s')
  | none =>
  match matchKeyword "=".data s with
  | some s' => some (QOp.eq, s')
  | none =>
  match matchKeyword "contains".data s with
  | some s' => some (QOp.contains, s')
  | none => none

/-- First `VALUE` alternative:
`Word(printables)("value_type") + "(" + Word(printables)("value") + ")"`. -/
def parseValueTyped (s : PState) : Option (String × String) :=
  match matchWordPrintables s with
  | none => none
  | some (vt, s1) =>
    match matchLiteral "(".data s1 with
    | none => none
    | some s2 =>
      match matchWordPrintables s2 with
      | none => none
      | some (v, s3) =>
        match matchLiteral ")".data s3 with
        | none => none
        | some _ => some (String.mk vt, String.mk v)

/-- Grammar `VALUE = (Word("value_type") + "(" + Word("value") + ")") |
Word("value")`: returns the optional type name and the literal token. -/
def parseValueTokens (s : PState) : Option (Option String × String) :=
  match parseValueTyped s with
  | some (vt, v) => some (some vt, v)
  | none =>
    match matchWordPrintables s with
    | some (v, _) => some (none, String.mk v)
    | none => none

/-- The named results of a successful `SYNTAX.parseString`. -/
structure RawQuery where
  action : QAction
  element : QElement
  operator : QOp
  valueType : Option String
  value : String
  deriving DecidableEq, Repr

/-- Running `SYNTAX.parseString(query)`: `ACTION + ELEMENT + OPERATOR + VALUE` from
the start of the string; trailing unconsumed input is ignored
(`parseAll` defaults to `False`). `none` models `ParseException`. -/
def rawParse (input : String) : Option RawQuery :=
  match parseAction (PState.mk none input.data) with
  | none => none
  | some (a, s1) =>
    match parseElement s1 with
    | none => none
    | some (e, s2) =>
      match parseOperator s2 with
      | none => none
      | some (o, s3) =>
        match parseValueTokens s3 with
        | none => none
        | some (vt, v) => some (RawQuery.mk a e o vt v)

/-! ## Literal conversion (`Server._parse_value_to_type`, server.py:235-252)

CPython literal syntax for `int(str)` / `float(str)` on the ASCII,
whitespace-free tokens produced by `Word(printables)`: optional sign and
digit groups that may contain single interior underscores. `float` specials
(`inf`, `nan`) and IEEE rounding are outside this embedding (see module
docstring); `complex(str)` is modelled for the forms `F`, `Fj`, `F±F'j`
with an optional surrounding paren pair. `none` models the `ValueError`
raised by a failed conversion (or the `KeyError` on an unknown type name),
which `Server._query` turns into "Invalid query syntax.". -/

/-- Accumulate a digit group allowing single interior underscores; `none`
on a non-digit, a doubled underscore or a trailing underscore. -/
def digitsAux : List Char → Nat → Option Nat
  | [], acc => some acc
  | '_' :: c :: cs, acc =>
    if c.isDigit then digitsAux cs (acc * 10 + (c.toNat - 48)) else none
  | c :: cs, acc =>
    if c.isDigit then digitsAux cs (acc * 10 + (c.toNat - 48)) else none

/-- A nonempty underscore-grouped digit run, as a natural number. -/
def digitGroup? : List Char → Option Nat
  | [] => none
  | c :: cs => if c.isDigit then digitsAux cs (c.toNat - 48) else none

/-- A nonempty underscore-grouped digit run, with its digit count (for
fraction parts). -/
def digitsCountAux : List Char → Nat → Nat → Option (Nat × Nat)
  | [], acc, k => some (acc, k)
  | '_' :: c :: cs, acc, k =>
    if c.isDigit then digitsCountAux cs (acc * 10 + (c.toNat - 48)) (k + 1) else none
  | c :: cs, acc, k =>
    if c.isDigit then digitsCountAux cs (acc * 10 + (c.toNat - 48)) (k + 1) else none

/-- See `digitsCountAux`. -/
def digitGroupCount? : List Char → Option (Nat × Nat)
  | [] => none
  | c :: cs => if c.isDigit then digitsCountAux cs (c.toNat - 48) 1 else none

/-- Python `int(s)` on a whitespace-free ASCII token. -/
def pyInt? (s : String) : Option Int :=
  match s.data with
  | '+' :: cs => (digitGroup? cs).map Int.ofNat
  | '-' :: cs => (digitGroup? cs).map (fun n => -(n : Int))
  | cs => (digitGroup? cs).map Int.ofNat

/-- Split a float body at the first `e`/`E` into mantissa and exponent. -/
def splitOnExp (cs : List Char) : List Char × Option (List Char) :=
  match cs.span (fun c => !(c == 'e' || c == 'E')) with
  | (m, []) => (m, none)
  | (m, _ :: ex) => (m, some ex)

/-- Split a mantissa at the first `.` into integer and fraction parts. -/
def splitOnDot (cs : List Char) : List Char × Option (List Char) :=
  match cs.span (fun c => !(c == '.')) with
  | (m, []) => (m, none)
  | (m, _ :: fp) => (m, some fp)

/-- The unsigned part of a Python `float` literal:
`digits [. [digits]] [exp]`, `. digits [exp]`, exponent `[+|-] digits`. -/
def pyFloatBody? (cs : List Char) : Option Rat :=
  let (mant, exp?) := splitOnExp cs
  let (ip, fp?) := splitOnDot mant
  let mv? : Option Rat :=
    match fp?, ip with
    | none, _ => (digitGroup? ip).map (fun n => (n : Rat))
    | some fp, [] => (digitGroupCount? fp).map (fun p => (p.1 : Rat) / ((10 : Rat) ^ p.2))
    | some [], _ => (digitGroup? ip).map (fun n => (n : Rat))
    | some fp, _ =>
      match digitGroup? ip, digitGroupCount? fp with
      | some a, some b => some ((a : Rat) + (b.1 : Rat) / ((10 : Rat) ^ b.2))
      | _, _ => none
  match mv?, exp? with
  | none, _ => none
  | some m, none => some m
  | some m, some ex =>
    match ex with
    | '+' :: r => (digitGroup? r).map (fun n => m * (10 : Rat) ^ n)
    | '-' :: r => (digitGroup? r).map (fun n => m / (10 : Rat) ^ n)
    | r => (digitGroup? r).map (fun n => m * (10 : Rat) ^ n)

/-- A signed Python `float` literal body on a char list. -/
def pyFloatSigned? : List Char → Option Rat
  | '+' :: cs => pyFloatBody? cs
  | '-' :: cs => (pyFloatBody? cs).map Neg.neg
  | cs => pyFloatBody? cs

/-- Python `float(s)` on a whitespace-free ASCII token. -/
def pyFloat? (s : String) : Option Rat :=
  pyFloatSigned? s.data

/-- Scanning a reversed complex body right to left, find the rightmost
`+`/`-` that separates real and imaginary parts (not string-initial, not an
exponent sign). Returns (left part, sign, right part), both in order. -/
def findSignSplit : List Char → List Char → Option (List Char × Char × List Char)
  | [], _ => none
  | c :: rest, acc =>
    if c == '+' || c == '-' then
      match rest with
      | [] => none
      | p :: _ =>
        if p == 'e' || p == 'E' then findSignSplit rest (c :: acc)
        else some (rest.reverse, c, acc)
    else findSignSplit rest (c :: acc)

/-- Python `complex(s)` on a whitespace-free ASCII token (forms `F`, `Fj`,
`F±F'j`, bare/signed `j`, optionally wrapped in one paren pair). -/
def pyComplex? (s : String) : Option (Rat × Rat) :=
  let cs :=
    match s.data with
    | '(' :: rest => if rest.getLast? == some ')' then rest.dropLast else s.data
    | _ => s.data
  match cs.getLast? with
  | none => none
  | some c =>
    if c == 'j' || c == 'J' then
      let body := cs.dropLast
      match findSignSplit body.reverse [] with
      | some (l, sg, r) =>
        let im? := if r.isEmpty then some (1 : Rat) else pyFloatSigned? r
        match pyFloatSigned? l, im? with
        | some re, some im => some (re, if sg == '-' then -im else im)
        | _, _ => none
      | none =>
        match body with
        | [] => some (0, 1)
        | ['+'] => some (0, 1)
        | ['-'] => some (0, -1)
        | _ => (pyFloatSigned? body).map (fun q => (0, q))
    else (pyFloatSigned? cs).map (fun q => (q, 0))

/-- Source `Server._parse_value_to_type` (server.py:235-252): cast the literal token
to the named type via the `types` dict; an unknown name raises `KeyError`,
a failed cast raises `ValueError` — both modelled as `none`. -/
def Server.parseValueToType (value : String) (valueType : String) : Option PyVal :=
  if valueType = "int" then (pyInt? value).map PyVal.intV
  else if valueType = "float" then (pyFloat? value).map PyVal.floatV
  else if valueType = "complex" then (pyComplex? value).map (fun p => PyVal.complexV p.1 p.2)
  else if valueType = "str" then some (PyVal.strV value)
  else none

/-- The parsed query consumed by the executor: `query["action"]`,
`query["element"]`, `query["operator"]` and the (possibly type-cast)
`query["value"]`. -/
structure ParsedQuery where
  action : QAction
  element : QElement
  operator : QOp
  value : PyVal
  deriving DecidableEq, Repr

/-- Source `Server._parse_query_string` (server.py:197-233): run the grammar, then
replace `query["value"]` by its cast when a `value_type` was matched. An
untyped literal stays a string. `none` models any escaping exception. -/
def Server.parseQueryString (q : String) : Option ParsedQuery :=
  match rawParse q with
  | none => none
  | some r =>
    match r.valueType with
    | none => some (ParsedQuery.mk r.action r.element r.operator (PyVal.strV r.value))
    | some vt =>
      match Server.parseValueToType r.value vt with
      | none => none
      | some v => some (ParsedQuery.mk r.action r.element r.operator v)

/-! ## The query executor (server.py:156-195, 254-314) -/

/-- The `operators` dict of `Server._query` (server.py:170-177), applied as
`operators[query["operator"]](entrySide, query["value"])`; `none` models a
raised comparison (caught per entry by the scan loops). -/
def evalOp : QOp → PyVal → PyVal → Option Bool
  | QOp.gt, a, b => pyGt a b
  | QOp.lt, a, b => pyLt a b
  | QOp.eq, a, b => some (pyEq a b)
  | QOp.le, a, b => pyLe a b
  | QOp.ge, a, b => pyGe a b
  | QOp.contains, a, b => pyContains a b

/-- The per-match `query_action(key)` call (server.py:271, 293, 302):
for `delete` it is `Server._delete_from_query` (server.py:307-314), i.e.
`del self.data[key]` on the live store; for `read` the handler is `None`,
so `None(key)` raises `TypeError`, which the per-entry `except` catches
*after* the match has been appended — the live store is untouched. -/
def applyQueryAction : QAction → Store → PyVal → Store
  | QAction.read, live, _ => live
  | QAction.delete, live, k => removePy live k

/-- The shared scan-loop shape of `_execute_query_by_value` (server.py:
266-274) and the non-`"="` branch of `_execute_query_by_key` (server.py:
297-305): iterate over `self.data.copy().items()`, and for each entry whose
selected side satisfies the operator, append it to `matches` and run the
query action against the live store; any exception in the body (comparison
`TypeError`, `None(key)`) skips silently to the next entry. -/
def scanLoop (sel : Entry → PyVal) (action : QAction) (op : QOp) (qv : PyVal) :
    List Entry → Store → List Entry → List Entry × Store
  | [], live, acc => (acc, live)
  | e :: rest, live, acc =>
    match evalOp op (sel e) qv with
    | some true => scanLoop sel action op qv rest (applyQueryAction action live e.1) (acc ++ [e])
    | _ => scanLoop sel action op qv rest live acc

/-- Source `Server._execute_query_by_value` (server.py:254-274). -/
def Server.executeQueryByValue (action : QAction) (op : QOp) (qv : PyVal)
    (st : Store) : List Entry × Store :=
  scanLoop (fun e => e.2) action op qv st st []

/-- Source `Server._execute_query_by_key` (server.py:276-305): with operator `"="`,
a direct `self.data[query["value"]]` access — appending `(query["value"],
self.data[query["value"]])` and running the query action, a `KeyError`
(absent key) yielding zero matches; otherwise the scan loop on keys. -/
def Server.executeQueryByKey (action : QAction) (op : QOp) (qv : PyVal)
    (st : Store) : List Entry × Store :=
  if op = QOp.eq then
    match lookupPy st qv with
    | some v => ([(qv, v)], applyQueryAction action st qv)
    | none => ([], st)
  else scanLoop (fun e => e.1) action op qv st st []

/-- The post-parse part of `Server._query` (server.py:170-193): route by
`query["element"]`, wrap the matches in `Response(True, None, matches)`.
After a successful parse nothing in this part can raise. -/
def Server.executeParsed (pq : ParsedQuery) (st : Store) : Response × Store :=
  let r :=
    match pq.element with
    | QElement.key => Server.executeQueryByKey pq.action pq.operator pq.value st
    | QElement.value => Server.executeQueryByValue pq.action pq.operator pq.value st
  (Response.mk true none r.1, r.2)

/-- Source `Server._query` (server.py:156-195) on a query string: parse, execute;
any escaping exception (all of them come from the parse/convert phase)
becomes the "Invalid query syntax." failure with the store untouched. -/
def Server.query (st : Store) (q : String) : Response × Store :=
  match Server.parseQueryString q with
  | none => (Server.sendError "Invalid query syntax.", st)
  | some pq => Server.executeParsed pq st

/-- Source `Server._query` as called from the dispatch table with `request.query`,
which is `None` for requests built by other client methods: `parseString`
on `None` raises, and `_query`'s `except` turns that into the same
"Invalid query syntax." failure. -/
def Server.queryRequest (st : Store) (q : Option String) : Response × Store :=
  match q with
  | none => (Server.sendError "Invalid query syntax.", st)
  | some s => Server.query st s

/-- The per-request dispatch step of `Server._listen` (server.py:87-103):
`request_types.get(request.request_type, 4)()`. The dict has handlers at
keys 0..4 (key 4 being the "Request type does not exist." error handler);
for any *other* type code `dict.get` returns its *default value* — the
integer `4`, not a callable — and calling it raises a `TypeError`
(`'int' object is not callable`) that no `except` catches, escaping
`_listen`. -/
def Server.handleRequest (st : Store) (r : Request) : Except PyError (Response × Store) :=
  match r.request_type with
  | 0 => Except.ok (Server.read st r.key, st)
  | 1 => Except.ok (Server.add st r.key r.value)
  | 2 => Except.ok (Server.delete st r.key)
  | 3 => Except.ok (Server.queryRequest st r.query)
  | 4 => Except.ok (Server.sendError "Request type does not exist.", st)
  | _ => Except.error PyError.typeErrorIntNotCallable

/-! ## Claim theorems: dispatch, startup, read/add/delete -/

/-- Claim C1 (code bug). The dispatcher does *not* return the "Request type
does not exist." failure for every undefined request type: only the type
code 4 reaches the error handler, because `request_types.get(rt, 4)`
returns the integer default `4` for any other unknown code and calling it
raises an uncaught `TypeError` that escapes the dispatch boundary. -/
theorem dispatch_unknown_type_raises :
    Server.handleRequest [] (Request.mk 5 PyVal.noneV PyVal.noneV none) =
      Except.error PyError.typeErrorIntNotCallable ∧
    Server.handleRequest [] (Request.mk (-1) PyVal.noneV PyVal.noneV none) =
      Except.error PyError.typeErrorIntNotCallable ∧
    Server.handleRequest [] (Request.mk 4 PyVal.noneV PyVal.noneV none) =
      Except.ok (Response.mk false (some "Request type does not exist.") [], []) :=
  ⟨rfl, rfl, rfl⟩

/-- Claim C3 (code bug). `_init_db` recovers (with an empty store) only from a
*missing* file, whose `IOError` is caught; a present file with corrupted
content makes `pickle.loads` raise a non-`IOError` that propagates to the
caller, contrary to the claim and to the method's own docstring. -/
theorem initDb_corrupt_propagates :
    Server.initDb FileState.corrupt = Except.error PyError.unpicklingError ∧
    Server.initDb FileState.absent = Except.ok ([] : Store) :=
  ⟨rfl, rfl⟩

/-- Claim C4 (confirmed). For every store, key and value, `add(k, v)` followed
by `read(k)` on the resulting store succeeds with data exactly `[(k, v)]`. -/
theorem add_then_read (st : Store) (k v : PyVal) :
    Server.read (Server.add st k v).2 k = Response.mk true none [(k, v)] := by
  simp [Server.add, Server.read, lookupPy_insertPy]

/-- Claim C7 (confirmed). For every key absent from the store, `read` fails
with "Entry does not exist." and `delete` fails with "Entry could not be
deleted.", both with empty data (and `delete` leaves the store unchanged). -/
theorem read_delete_absent_key (st : Store) (k : PyVal)
    (h : lookupPy st k = none) :
    Server.read st k = Response.mk false (some "Entry does not exist.") [] ∧
    Server.delete st k =
      (Response.mk false (some "Entry could not be deleted.") [], st) := by
  constructor
  · simp [Server.read, h, Server.sendError]
  · simp [Server.delete, h, Server.sendError]

/-- Witness for `read_delete_absent_key` at a concrete store and key. -/
theorem read_delete_absent_key_witness :
    Server.read [(PyVal.intV 1, PyVal.intV 123)] (PyVal.intV 2) =
      Response.mk false (some "Entry does not exist.") [] ∧
    Server.delete [(PyVal.intV 1, PyVal.intV 123)] (PyVal.intV 2) =
      (Response.mk false (some "Entry could not be deleted.") [],
       [(PyVal.intV 1, PyVal.intV 123)]) :=
  read_delete_absent_key [(PyVal.intV 1, PyVal.intV 123)] (PyVal.intV 2) (by decide)

/-- Claim C10 (confirmed). Deleting a present key answers
`Response(success=True, message=None, data=[])` — the removed pair is not
reported in the response data. -/
theorem delete_present_key_response (st : Store) (k v : PyVal)
    (h : lookupPy st k = some v) :
    (Server.delete st k).1 = Response.mk true none [] := by
  simp [Server.delete, h]

/-- Witness for `delete_present_key_response` at a concrete store and key. -/
theorem delete_present_key_response_witness :
    (Server.delete [(PyVal.intV 1, PyVal.intV 123)] (PyVal.intV 1)).1 =
      Response.mk true none [] :=
  delete_present_key_response [(PyVal.intV 1, PyVal.intV 123)] (PyVal.intV 1)
    (PyVal.intV 123) (by decide)

/-! ## Scan-loop characterization -/

/-- The per-entry test a scan applies: the selected side of the entry
satisfies the operator against the query value (a raised comparison is not
a match). -/
def matchPredicate (sel : Entry → PyVal) (op : QOp) (qv : PyVal) (e : Entry) : Bool :=
  evalOp op (sel e) qv == some true

/-- A `read` scan collects exactly the matching entries of the iterated copy
(in its order) and leaves the live store untouched. -/
theorem scanLoop_read_spec (sel : Entry → PyVal) (op : QOp) (qv : PyVal)
    (copy : List Entry) :
    ∀ (live : Store) (acc : List Entry),
      scanLoop sel QAction.read op qv copy live acc =
        (acc ++ copy.filter (matchPredicate sel op qv), live) := by
  induction copy with
  | nil => intro live acc; simp [scanLoop]
  | cons e rest ih =>
    intro live acc
    rcases h : evalOp op (sel e) qv with _ | b
    · simp [scanLoop, h, List.filter_cons, matchPredicate, ih]
    · cases b
      · simp [scanLoop, h, List.filter_cons, matchPredicate, ih]
      · simp [scanLoop, h, List.filter_cons, matchPredicate, ih, applyQueryAction]

/-- Deleting the head key of the tail from an appended store removes exactly
that entry when no earlier key `==`-equals it. -/
theorem removePy_append_head (done : Store) (e : Entry) (rest : Store)
    (h : ∀ d ∈ done, pyEq d.1 e.1 = false) :
    removePy (done ++ e :: rest) e.1 = done ++ rest := by
  induction done with
  | nil => simp [removePy, pyEq_refl]
  | cons d ds ih =>
    have hd : pyEq d.1 e.1 = false := h d (by simp)
    simp only [List.cons_append, removePy, hd]
    simp only [Bool.false_eq_true, if_false, List.cons.injEq, true_and]
    exact ih (fun d' hd' => h d' (by simp [hd']))

/-- A `delete` scan over a copy of a well-formed store collects exactly the
matching entries and leaves exactly the non-matching entries in the live
store: the generalized loop invariant, where `done` is the already-scanned,
already-filtered prefix of the live store. -/
theorem scanLoop_delete_spec (sel : Entry → PyVal) (op : QOp) (qv : PyVal) :
    ∀ (copy : List Entry) (done : Store) (acc : List Entry),
      (done ++ copy).Pairwise (fun a b => pyEq a.1 b.1 = false) →
      scanLoop sel QAction.delete op qv copy (done ++ copy) acc =
        (acc ++ copy.filter (matchPredicate sel op qv),
         done ++ copy.filter (fun e => !(matchPredicate sel op qv e))) := by
  intro copy
  induction copy with
  | nil => intro done acc _; simp [scanLoop]
  | cons e rest ih =>
    intro done acc hwf
    have hdone_e : ∀ d ∈ done, pyEq d.1 e.1 = false := by
      intro d hd
      exact (List.pairwise_append.mp hwf).2.2 d hd e (by simp)
    have hwf_drop : (done ++ rest).Pairwise (fun a b => pyEq a.1 b.1 = false) :=
      hwf.sublist ((List.append_sublist_append_left done).mpr
        (List.sublist_cons_self e rest))
    have hwf_keep : ((done ++ [e]) ++ rest).Pairwise (fun a b => pyEq a.1 b.1 = false) := by
      simpa using hwf
    rcases h : evalOp op (sel e) qv with _ | b
    · have := ih (done ++ [e]) acc hwf_keep
      simp only [List.append_assoc, List.singleton_append] at this
      simp [scanLoop, h, List.filter_cons, matchPredicate, this]
    · cases b
      · have := ih (done ++ [e]) acc hwf_keep
        simp only [List.append_assoc, List.singleton_append] at this
        simp [scanLoop, h, List.filter_cons, matchPredicate, this]
      · have hrem : applyQueryAction QAction.delete (done ++ e :: rest) e.1 = done ++ rest := by
          simp [applyQueryAction, removePy_append_head done e rest hdone_e]
        have := ih done (acc ++ [e]) hwf_drop
        simp [scanLoop, h, List.filter_cons, matchPredicate, hrem, this]

/-- Executing `_execute_query_by_value` with a `read` action: matches are the
value-matching entries, the store is untouched. -/
theorem executeQueryByValue_read (op : QOp) (qv : PyVal) (st : Store) :
    Server.executeQueryByValue QAction.read op qv st =
      (st.filter (matchPredicate (fun e => e.2) op qv), st) := by
  simp [Server.executeQueryByValue, scanLoop_read_spec]

/-- Executing `_execute_query_by_value` with a `delete` action on a well-formed store:
matches are the value-matching entries, which are exactly the ones removed. -/
theorem executeQueryByValue_delete (op : QOp) (qv : PyVal) (st : Store)
    (hwf : StoreWF st) :
    Server.executeQueryByValue QAction.delete op qv st =
      (st.filter (matchPredicate (fun e => e.2) op qv),
       st.filter (fun e => !(matchPredicate (fun e => e.2) op qv e))) := by
  have h := scanLoop_delete_spec (fun e => e.2) op qv st [] [] (by simpa [StoreWF] using hwf)
  simpa [Server.executeQueryByValue] using h

/-- The scan branch of `_execute_query_by_key` with a `read` action. -/
theorem executeQueryByKey_read_scan (op : QOp) (qv : PyVal) (st : Store)
    (hop : op ≠ QOp.eq) :
    Server.executeQueryByKey QAction.read op qv st =
      (st.filter (matchPredicate (fun e => e.1) op qv), st) := by
  simp [Server.executeQueryByKey, hop, scanLoop_read_spec]

/-- The scan branch of `_execute_query_by_key` with a `delete` action. -/
theorem executeQueryByKey_delete_scan (op : QOp) (qv : PyVal) (st : Store)
    (hop : op ≠ QOp.eq) (hwf : StoreWF st) :
    Server.executeQueryByKey QAction.delete op qv st =
      (st.filter (matchPredicate (fun e => e.1) op qv),
       st.filter (fun e => !(matchPredicate (fun e => e.1) op qv e))) := by
  have h := scanLoop_delete_spec (fun e => e.1) op qv st [] [] (by simpa [StoreWF] using hwf)
  simpa [Server.executeQueryByKey, hop] using h

/-- Claim C9 (confirmed). Executing any well-formed query whose action is
`read` — by key or by value, any operator — leaves the store unchanged. -/
theorem read_query_preserves_store (st : Store) (q : String) (pq : ParsedQuery)
    (hp : Server.parseQueryString q = some pq) (ha : pq.action = QAction.read) :
    (Server.query st q).2 = st := by
  obtain ⟨a, el, op, v⟩ := pq
  simp only at ha
  subst ha
  simp only [Server.query, hp]
  cases el
  case key =>
    by_cases hop : op = QOp.eq
    · subst hop
      simp only [Server.executeParsed, Server.executeQueryByKey, if_pos rfl]
      cases hl : lookupPy st v <;> simp [hl, applyQueryAction]
    · simp [Server.executeParsed, executeQueryByKey_read_scan op v st hop]
  case value =>
    simp [Server.executeParsed, executeQueryByValue_read]

/-- Witness for `read_query_preserves_store` on a concrete store and query. -/
theorem read_query_preserves_store_witness :
    (Server.query [(PyVal.intV 10, PyVal.strV "Radu-Mihai")] "read value contains Mihai").2 =
      [(PyVal.intV 10, PyVal.strV "Radu-Mihai")] :=
  read_query_preserves_store [(PyVal.intV 10, PyVal.strV "Radu-Mihai")]
    "read value contains Mihai"
    (ParsedQuery.mk QAction.read QElement.value QOp.contains (PyVal.strV "Mihai"))
    (by decide) rfl

/-! ## Cross-kind comparisons -/

/-- The value is of a Python kind ordered against numbers (`int`/`float`). -/
def PyVal.isNum : PyVal → Bool
  | .intV _ => true
  | .floatV _ => true
  | _ => false

/-- The value is a Python `str`. -/
def PyVal.isStr : PyVal → Bool
  | .strV _ => true
  | _ => false

/-- The entry side a query tests: `query["element"]` selects the key or the
value of each entry. -/
def queryOperand (pq : ParsedQuery) (e : Entry) : PyVal :=
  match pq.element with
  | QElement.key => e.1
  | QElement.value => e.2

/-- The operand kinds are incompatible for the operator, so that applying
the operator raises in Python: ordering across string/number or on
`complex`/`None` operands; `contains` whenever container and item are not
both strings. Python `==` never raises, so `=` has no incompatible kinds. -/
def incompatibleKinds (op : QOp) (x qv : PyVal) : Bool :=
  match op with
  | QOp.eq => false
  | QOp.contains => !(x.isStr && qv.isStr)
  | _ => !((x.isNum && qv.isNum) || (x.isStr && qv.isStr))

/-- On incompatible kinds the operator raises (`none`), never a match. -/
theorem evalOp_none_of_incompatible (op : QOp) (x qv : PyVal)
    (h : incompatibleKinds op x qv = true) : evalOp op x qv = none := by
  cases op <;> cases x <;> cases qv <;>
    simp_all [incompatibleKinds, evalOp, pyLt, pyGt, pyLe, pyGe, pyContains,
      PyVal.asRatNum, PyVal.isNum, PyVal.isStr]

/-- An entry whose test raised is never among the matches of a scan. -/
theorem not_mem_filter_matchPredicate {sel : Entry → PyVal} {op : QOp}
    {qv : PyVal} {e : Entry} (st : Store) (h : evalOp op (sel e) qv = none) :
    e ∉ st.filter (matchPredicate sel op qv) := by
  intro hmem
  have := (List.mem_filter.mp hmem).2
  simp [matchPredicate, h] at this

/-- An entry whose test raised survives a delete scan. -/
theorem mem_filter_not_matchPredicate {sel : Entry → PyVal} {op : QOp}
    {qv : PyVal} {e : Entry} {st : Store} (hmem : e ∈ st)
    (h : evalOp op (sel e) qv = none) :
    e ∈ st.filter (fun e' => !(matchPredicate sel op qv e')) :=
  List.mem_filter.mpr ⟨hmem, by simp [matchPredicate, h]⟩

/-- Claim C6 (confirmed). In any query execution over a well-formed store, an
entry whose tested side (key or value, per the query's element) has a kind
incompatible with the query's typed value is silently skipped: it is not
among the returned matches, the response still succeeds, and the entry is
still in the resulting store (even for `delete` queries). The `=` operator
has no incompatible kinds (Python `==` never raises), so the statement
covers exactly the scan comparisons. -/
theorem incompatible_entry_skipped (pq : ParsedQuery) (st : Store) (k x : PyVal)
    (hwf : StoreWF st) (hmem : (k, x) ∈ st)
    (hinc : incompatibleKinds pq.operator (queryOperand pq (k, x)) pq.value = true) :
    (k, x) ∉ (Server.executeParsed pq st).1.data ∧
    (Server.executeParsed pq st).1.success = true ∧
    (k, x) ∈ (Server.executeParsed pq st).2 := by
  obtain ⟨a, el, op, qv⟩ := pq
  have hnone := evalOp_none_of_incompatible op _ qv hinc
  cases el
  case key =>
    have hk : queryOperand (ParsedQuery.mk a QElement.key op qv) (k, x) = k := rfl
    rw [hk] at hnone
    have hopne : op ≠ QOp.eq := by
      rintro rfl
      simp [incompatibleKinds] at hinc
    cases a
    case read =>
      simp only [Server.executeParsed, executeQueryByKey_read_scan op qv st hopne]
      exact ⟨not_mem_filter_matchPredicate st hnone, trivial, hmem⟩
    case delete =>
      simp only [Server.executeParsed, executeQueryByKey_delete_scan op qv st hopne hwf]
      exact ⟨not_mem_filter_matchPredicate st hnone, trivial,
        mem_filter_not_matchPredicate hmem hnone⟩
  case value =>
    have hx : queryOperand (ParsedQuery.mk a QElement.value op qv) (k, x) = x := rfl
    rw [hx] at hnone
    cases a
    case read =>
      simp only [Server.executeParsed, executeQueryByValue_read]
      exact ⟨not_mem_filter_matchPredicate st hnone, trivial, hmem⟩
    case delete =>
      simp only [Server.executeParsed, executeQueryByValue_delete op qv st hwf]
      exact ⟨not_mem_filter_matchPredicate st hnone, trivial,
        mem_filter_not_matchPredicate hmem hnone⟩

/-- Witness for `incompatible_entry_skipped`: a string value scanned by a
`delete value < int(5)` query is skipped and survives. -/
theorem incompatible_entry_skipped_witness :
    (PyVal.intV 1, PyVal.strV "abc") ∉
      (Server.executeParsed
        (ParsedQuery.mk QAction.delete QElement.value QOp.lt (PyVal.intV 5))
        [(PyVal.intV 1, PyVal.strV "abc")]).1.data ∧
    (Server.executeParsed
      (ParsedQuery.mk QAction.delete QElement.value QOp.lt (PyVal.intV 5))
      [(PyVal.intV 1, PyVal.strV "abc")]).1.success = true ∧
    (PyVal.intV 1, PyVal.strV "abc") ∈
      (Server.executeParsed
        (ParsedQuery.mk QAction.delete QElement.value QOp.lt (PyVal.intV 5))
        [(PyVal.intV 1, PyVal.strV "abc")]).2 :=
  incompatible_entry_skipped
    (ParsedQuery.mk QAction.delete QElement.value QOp.lt (PyVal.intV 5))
    [(PyVal.intV 1, PyVal.strV "abc")] (PyVal.intV 1) (PyVal.strV "abc")
    (by simp [StoreWF]) (by simp) (by decide)

/-! ## Parsing queries with a symbolic literal token

The claims quantify over query strings of the shape `"<prefix> " ++ X` where
`X` is the literal token: a nonempty, whitespace-free run of printable ASCII
characters (anything else either cannot be a single `Word(printables)` token
or changes which tokens the grammar sees). -/

/-- Token predicate: `X` can stand as one `Word(printables)` token of a query string. -/
def tokenOK (s : String) : Bool :=
  !s.data.isEmpty && s.data.all isPrintableChar

/-- A printable character is not whitespace. -/
theorem printable_not_ws (c : Char) (h : isPrintableChar c = true) :
    isWsChar c = false := by
  by_contra hw
  rw [Bool.not_eq_false] at hw
  simp only [isWsChar, Bool.or_eq_true, beq_iff_eq] at hw
  rcases hw with ((rfl | rfl) | rfl) | rfl <;> exact absurd h (by decide)

/-- Skipping whitespace before a printable-headed tail consumes exactly the
one space. -/
theorem skipWs_ws_tail (p : Option Char) (c : Char) (cs : List Char)
    (hcw : isWsChar c = false) :
    skipWs (PState.mk p (' ' :: c :: cs)) = PState.mk (some ' ') (c :: cs) := by
  simp [skipWs, skipWsL, hcw, show isWsChar ' ' = true from rfl]

/-- Matching `Word(printables)` on a space then a fully printable tail takes exactly
the tail and leaves no input. -/
theorem matchWordPrintables_ws_tail (p : Option Char) (c : Char) (cs : List Char)
    (hall : ∀ a ∈ c :: cs, isPrintableChar a = true) :
    matchWordPrintables (PState.mk p (' ' :: c :: cs)) =
      some (c :: cs, PState.mk (c :: cs).getLast? []) := by
  have hcw : isWsChar c = false := printable_not_ws c (hall c (by simp))
  have ht : (c :: cs).takeWhile isPrintableChar = c :: cs :=
    List.takeWhile_eq_self_iff.mpr hall
  simp [matchWordPrintables, skipWs_ws_tail p c cs hcw, ht, List.drop_length]

/-- Matching `VALUE` on a space then a fully printable tail: the typed alternative
fails at the missing `"("`, the plain-literal alternative takes the whole
tail as the untyped `value`. -/
theorem parseValueTokens_ws_tail (p : Option Char) (c : Char) (cs : List Char)
    (hall : ∀ a ∈ c :: cs, isPrintableChar a = true) :
    parseValueTokens (PState.mk p (' ' :: c :: cs)) =
      some (none, String.mk (c :: cs)) := by
  have hw := matchWordPrintables_ws_tail p c cs hall
  simp [parseValueTokens, parseValueTyped, hw, matchLiteral, skipWs, skipWsL,
    show "(".data = ['('] from rfl, stripLit]

/-- Parsing `"delete value contains " ++ X` for a token `X`: the fixed
keywords match, and `X` becomes the untyped (string) literal. -/
theorem parseQueryString_delete_contains (X : String) (hX : tokenOK X = true) :
    Server.parseQueryString ("delete value contains " ++ X) =
      some (ParsedQuery.mk QAction.delete QElement.value QOp.contains (PyVal.strV X)) := by
  obtain ⟨xl⟩ := X
  cases xl with
  | nil => simp [tokenOK] at hX
  | cons c cs =>
    have hall : ∀ a ∈ c :: cs, isPrintableChar a = true := by
      simpa [tokenOK, List.all_eq_true] using hX
    have hA : parseAction (PState.mk none
        ('d' :: 'e' :: 'l' :: 'e' :: 't' :: 'e' :: ' ' :: 'v' :: 'a' :: 'l' ::
         'u' :: 'e' :: ' ' :: 'c' :: 'o' :: 'n' :: 't' :: 'a' :: 'i' :: 'n' ::
         's' :: ' ' :: c :: cs)) =
        some (QAction.delete, PState.mk (some 'e')
          (' ' :: 'v' :: 'a' :: 'l' :: 'u' :: 'e' :: ' ' :: 'c' :: 'o' :: 'n' ::
           't' :: 'a' :: 'i' :: 'n' :: 's' :: ' ' :: c :: cs)) := rfl
    have hE : parseElement (PState.mk (some 'e')
        (' ' :: 'v' :: 'a' :: 'l' :: 'u' :: 'e' :: ' ' :: 'c' :: 'o' :: 'n' ::
         't' :: 'a' :: 'i' :: 'n' :: 's' :: ' ' :: c :: cs)) =
        some (QElement.value, PState.mk (some 'e')
          (' ' :: 'c' :: 'o' :: 'n' :: 't' :: 'a' :: 'i' :: 'n' :: 's' :: ' ' :: c :: cs)) := rfl
    have hO : parseOperator (PState.mk (some 'e')
        (' ' :: 'c' :: 'o' :: 'n' :: 't' :: 'a' :: 'i' :: 'n' :: 's' :: ' ' :: c :: cs)) =
        some (QOp.contains, PState.mk (some 's') (' ' :: c :: cs)) := rfl
    have hV := parseValueTokens_ws_tail (some 's') c cs hall
    simp [Server.parseQueryString, rawParse, hA, hE, hO, hV]

/-- Parsing `"read key = " ++ K` for a token `K`: the fixed keywords match
and `K` becomes the untyped (string) literal. -/
theorem parseQueryString_read_key_eq (K : String) (hK : tokenOK K = true) :
    Server.parseQueryString ("read key = " ++ K) =
      some (ParsedQuery.mk QAction.read QElement.key QOp.eq (PyVal.strV K)) := by
  obtain ⟨xl⟩ := K
  cases xl with
  | nil => simp [tokenOK] at hK
  | cons c cs =>
    have hall : ∀ a ∈ c :: cs, isPrintableChar a = true := by
      simpa [tokenOK, List.all_eq_true] using hK
    have hA : parseAction (PState.mk none
        ('r' :: 'e' :: 'a' :: 'd' :: ' ' :: 'k' :: 'e' :: 'y' :: ' ' :: '=' ::
         ' ' :: c :: cs)) =
        some (QAction.read, PState.mk (some 'd')
          (' ' :: 'k' :: 'e' :: 'y' :: ' ' :: '=' :: ' ' :: c :: cs)) := rfl
    have hE : parseElement (PState.mk (some 'd')
        (' ' :: 'k' :: 'e' :: 'y' :: ' ' :: '=' :: ' ' :: c :: cs)) =
        some (QElement.key, PState.mk (some 'y') (' ' :: '=' :: ' ' :: c :: cs)) := rfl
    have hO : parseOperator (PState.mk (some 'y') (' ' :: '=' :: ' ' :: c :: cs)) =
        some (QOp.eq, PState.mk (some '=') (' ' :: c :: cs)) := rfl
    have hV := parseValueTokens_ws_tail (some '=') c cs hall
    simp [Server.parseQueryString, rawParse, hA, hE, hO, hV]

/-- Claim C5 (confirmed). For every well-formed store and token `X`, the query
`"delete value contains X"` removes exactly the entries whose value contains
`X` (Python `X in value`, i.e. substring on string values; a non-string
value raises and is skipped, never matching), returns exactly the removed
pairs in store order, and the identical query run again on the result
succeeds with zero matches and changes nothing. -/
theorem delete_value_contains_query (st : Store) (X : String)
    (hwf : StoreWF st) (hX : tokenOK X = true) :
    Server.query st ("delete value contains " ++ X) =
      (Response.mk true none
        (st.filter (fun e => pyContains e.2 (PyVal.strV X) == some true)),
       st.filter (fun e => !(pyContains e.2 (PyVal.strV X) == some true))) ∧
    Server.query
        (st.filter (fun e => !(pyContains e.2 (PyVal.strV X) == some true)))
        ("delete value contains " ++ X) =
      (Response.mk true none [],
       st.filter (fun e => !(pyContains e.2 (PyVal.strV X) == some true))) := by
  have hp := parseQueryString_delete_contains X hX
  show
    Server.query st ("delete value contains " ++ X) =
      (Response.mk true none
        (st.filter (matchPredicate (fun e => e.2) QOp.contains (PyVal.strV X))),
       st.filter (fun e => !(matchPredicate (fun e => e.2) QOp.contains (PyVal.strV X) e))) ∧
    Server.query
        (st.filter (fun e => !(matchPredicate (fun e => e.2) QOp.contains (PyVal.strV X) e)))
        ("delete value contains " ++ X) =
      (Response.mk true none [],
       st.filter (fun e => !(matchPredicate (fun e => e.2) QOp.contains (PyVal.strV X) e)))
  have hwf' : StoreWF (st.filter
      (fun e => !(matchPredicate (fun e => e.2) QOp.contains (PyVal.strV X) e))) :=
    hwf.sublist (List.filter_sublist st)
  constructor
  · simp only [Server.query, hp, Server.executeParsed,
      executeQueryByValue_delete _ _ _ hwf]
  · simp only [Server.query, hp, Server.executeParsed,
      executeQueryByValue_delete _ _ _ hwf']
    rw [List.filter_filter, List.filter_filter]
    simp [Bool.and_not_self, Bool.and_self]

/-- Witness for `delete_value_contains_query` on the doctest store and
`X := "Mihai"`: the one matching entry is returned and removed, the rerun
finds nothing. -/
theorem delete_value_contains_query_witness :
    Server.query
        [(PyVal.strV "1a2b3c", PyVal.strV "John"),
         (PyVal.intV 10, PyVal.strV "Radu-Mihai"),
         (PyVal.intV 15, PyVal.strV "Onescu")]
        ("delete value contains " ++ "Mihai") =
      (Response.mk true none [(PyVal.intV 10, PyVal.strV "Radu-Mihai")],
       [(PyVal.strV "1a2b3c", PyVal.strV "John"),
        (PyVal.intV 15, PyVal.strV "Onescu")]) ∧
    Server.query
        [(PyVal.strV "1a2b3c", PyVal.strV "John"),
         (PyVal.intV 15, PyVal.strV "Onescu")]
        ("delete value contains " ++ "Mihai") =
      (Response.mk true none [],
       [(PyVal.strV "1a2b3c", PyVal.strV "John"),
        (PyVal.intV 15, PyVal.strV "Onescu")]) :=
  delete_value_contains_query
    [(PyVal.strV "1a2b3c", PyVal.strV "John"),
     (PyVal.intV 10, PyVal.strV "Radu-Mihai"),
     (PyVal.intV 15, PyVal.strV "Onescu")]
    "Mihai" (by unfold StoreWF; decide) (by decide)

/-- Claim C8 (amended). For a *string* key expressible as a token `K`, the
query `"read key = K"` answers exactly like `read(K)` when the key is
present, and succeeds with zero matches (rather than failing) when it is
absent. The query literal is parsed as a string, so this is the corrected
form of the claim — see the counterexample for non-string keys. -/
theorem read_key_eq_query (st : Store) (K : String) (hK : tokenOK K = true) :
    Server.query st ("read key = " ++ K) =
      ((match lookupPy st (PyVal.strV K) with
        | some _ => Server.read st (PyVal.strV K)
        | none => Response.mk true none []), st) := by
  have hp := parseQueryString_read_key_eq K hK
  simp only [Server.query, hp, Server.executeParsed, Server.executeQueryByKey,
    if_pos rfl]
  cases hl : lookupPy st (PyVal.strV K) with
  | some v => simp [hl, applyQueryAction, Server.read]
  | none => simp [hl]

/-- Witness for `read_key_eq_query`: present and absent string keys. -/
theorem read_key_eq_query_witness :
    Server.query [(PyVal.strV "John", PyVal.intV 7)] ("read key = " ++ "John") =
      ((match lookupPy [(PyVal.strV "John", PyVal.intV 7)] (PyVal.strV "John") with
        | some _ => Server.read [(PyVal.strV "John", PyVal.intV 7)] (PyVal.strV "John")
        | none => Response.mk true none []),
       [(PyVal.strV "John", PyVal.intV 7)]) ∧
    Server.query [] ("read key = " ++ "John") =
      ((match lookupPy [] (PyVal.strV "John") with
        | some _ => Server.read [] (PyVal.strV "John")
        | none => Response.mk true none []), ([] : Store)) :=
  ⟨read_key_eq_query [(PyVal.strV "John", PyVal.intV 7)] "John" (by decide),
   read_key_eq_query [] "John" (by decide)⟩

/-- Claim C8 as stated is false: for the present non-string key `1`, `read(1)`
returns the entry but `query("read key = 1")` parses the literal as the
string `"1"`, matches nothing, and returns zero matches — not the same
single-entry result. -/
theorem read_key_eq_query_claim_counterexample :
    lookupPy [(PyVal.intV 1, PyVal.intV 123)] (PyVal.intV 1) =
      some (PyVal.intV 123) ∧
    Server.read [(PyVal.intV 1, PyVal.intV 123)] (PyVal.intV 1) =
      Response.mk true none [(PyVal.intV 1, PyVal.intV 123)] ∧
    Server.query [(PyVal.intV 1, PyVal.intV 123)] "read key = 1" =
      (Response.mk true none [], [(PyVal.intV 1, PyVal.intV 123)]) := by
  decide

/-- Claim C2 (amended). Whenever the fixed-position grammar match or the typed
literal conversion fails — wrong keyword, missing tokens, malformed
parenthesization, unknown type name, failed cast — `_query` answers
`Response(False, "Invalid query syntax.", [])` and leaves the store
unchanged. (Surplus trailing tokens are *not* such a failure; see the
counterexample.) -/
theorem parse_failure_invalid_syntax (st : Store) (q : String)
    (h : Server.parseQueryString q = none) :
    Server.query st q =
      (Response.mk false (some "Invalid query syntax.") [], st) := by
  simp [Server.query, h, Server.sendError]

/-- Witness for `parse_failure_invalid_syntax` on the doctest's malformed
query (wrong element keyword). -/
theorem parse_failure_invalid_syntax_witness :
    Server.query [] "read something > int ( 5 )" =
      (Response.mk false (some "Invalid query syntax.") [], []) :=
  parse_failure_invalid_syntax [] "read something > int ( 5 )" (by decide)

/-- Claim C2 as stated is false: `parseString` does not require consuming the
whole query, so the five-token string `"read key = 5 junk"` — a wrong token
count for the four/six-token grammar — is accepted (as `read key = "5"`,
ignoring `"junk"`) and answers success, not the "Invalid query syntax."
failure. -/
theorem invalid_syntax_claim_counterexample :
    Server.query [] "read key = 5 junk" = (Response.mk true none [], []) ∧
    Server.query [] "read key = 5 junk" ≠
      (Response.mk false (some "Invalid query syntax.") [], []) := by
  decide
